import Mathlib

/-!
Verification of the fibre-channel attach/detach library (package `fibrechannel`).

The Go source is shallowly embedded: the `ioHandler` interface becomes the
`FS` structure of pure functions describing one snapshot of the filesystem;
Go's `(value, error)` return pairs become `α × Option FcError`; the side
effect of writing a file is recorded as a `WriteAttempt` in a trace.  The
bus rescan mutates the world (the kernel may expose new devices), so the
two-phase search runs over a `World` holding the filesystem snapshot before
and after the rescan.
-/

namespace Fibrechannel

/-- Errors produced by the library, mirroring the `errors.New` / `fmt.Errorf`
values in the Go source, plus opaque I/O errors coming from the handler. -/
inductive FcError where
  | ioErr (msg : String)
  | illegalPath (devicePath : String)
  | noFcDiskFound
  | invalidDeviceName (devicePath : String)
  | detachFailed (device : String) (err : FcError)
deriving Repr, DecidableEq

/-- Shallow embedding of the Go `ioHandler` interface: one filesystem
snapshot.  `readDir` returns the entry names (the only field of
`os.FileInfo` the source ever uses is `Name()`); `lstat` only matters
through success/failure; `writeFile` takes contents and permission bits. -/
structure FS where
  readDir : String → Except FcError (List String)
  lstat : String → Except FcError Unit
  evalSymlinks : String → Except FcError String
  writeFile : String → String → Nat → Except FcError Unit

/-- One attempted file write: the target path, the data written and the
handler's result.  The Go code discards the result; it is kept in the
trace so that theorems can state that it is never consulted. -/
structure WriteAttempt where
  path : String
  data : String
  result : Except FcError Unit

/-- True iff an `Except` is `.ok`, as Go's `err == nil` test. -/
def exOk {ε α : Type} : Except ε α → Bool
  | .ok _ => true
  | .error _ => false

/-- Go's `strings.Contains s sub`: `sub` occurs as a substring of `s`. -/
def strContains (s sub : String) : Bool :=
  decide (sub.toList <:+: s.toList)

/-- Go's `strings.HasPrefix s pre`. -/
def strStartsWith (s pre : String) : Bool :=
  pre.toList.isPrefixOf s.toList

/-- Splitting a character list at every occurrence of `sep`; the result
always has one more group than there are separators. -/
def splitChars (sep : Char) : List Char → List (List Char)
  | [] => [[]]
  | c :: rest =>
    let r := splitChars sep rest
    if c == sep then [] :: r
    else
      match r with
      | [] => [[c]]
      | g :: gs => (c :: g) :: gs

/-- Go's `strings.Split s "/"` for a single-character separator: split at
every occurrence, keeping empty fragments (`strings.Split "" "/" = [""]`,
`strings.Split "/" "/" = ["", ""]`). -/
def strSplit (s : String) (sep : Char) : List String :=
  (splitChars sep s.toList).map List.asString

/-- Joining strings with a separator, as Go's `strings.Join`. -/
def joinSep (sep : String) : List String → String
  | [] => ""
  | [x] => x
  | x :: y :: xs => x ++ sep ++ joinSep sep (y :: xs)

/-- The `Connector` structure holds the parameters of one fibre channel connection
(the unexported `io` field of the Go struct is passed separately). -/
structure Connector where
  VolumeName : String := ""
  TargetWWNs : List String := []
  Lun : String := ""
  WWIDs : List String := []
deriving Repr, DecidableEq

/-- Function `findDeviceForPath`: resolve the symlink and return the bare device
name when the target splits on `/` into exactly `["", "dev…", name]`;
otherwise the `Illegal path` error.  Result is Go's `(string, error)`. -/
def findDeviceForPath (p : String) (io : FS) : String × Option FcError :=
  match io.evalSymlinks p with
  | .error err => ("", some err)
  | .ok devicePath =>
    let parts := strSplit devicePath '/'
    if parts.length == 3 && strStartsWith (parts.getD 1 "") "dev" then
      (parts.getD 2 "", none)
    else
      ("", some (.illegalPath devicePath))

/-- The scan of `/sys/block/` inside `FindMultipathDeviceForDevice`:
return `/dev/<name>` for the first listing entry whose name starts with
`dm-` and whose `slaves/<disk>` entry stats successfully. -/
def findDmParent (disk : String) (io : FS) : List String → Option String
  | [] => none
  | name :: rest =>
    if strStartsWith name "dm-" && exOk (io.lstat ("/sys/block/" ++ name ++ "/slaves/" ++ disk)) then
      some ("/dev/" ++ name)
    else
      findDmParent disk io rest

/-- Function `FindMultipathDeviceForDevice`: given a device path such as `/dev/sdx`,
find the device-mapper parent.  Parse failure and a failing `/sys/block/`
listing propagate as errors; no match is `("", nil)`. -/
def FindMultipathDeviceForDevice (device : String) (io : FS) : String × Option FcError :=
  match findDeviceForPath device io with
  | (_, some err) => ("", some err)
  | (disk, none) =>
    match io.readDir "/sys/block/" with
    | .ok dirs =>
      match findDmParent disk io dirs with
      | some dm => (dm, none)
      | none => ("", none)
    | .error err2 => ("", some err2)

/-- Function `scsiHostRescan`: list `/sys/class/scsi_host/` and write `- - -` to
every `<entry>/scan` file, ignoring individual write results (the Go code
discards the `WriteFile` error).  The returned trace records every write
attempted together with its outcome. -/
def scsiHostRescan (io : FS) : List WriteAttempt :=
  match io.readDir "/sys/class/scsi_host/" with
  | .ok dirs =>
    dirs.map (fun f =>
      let name := "/sys/class/scsi_host/" ++ f ++ "/scan"
      { path := name, data := "- - -", result := io.writeFile name "- - -" 438 })
  | .error _ => []

/-- The inner loop of `findDisk` over the `/dev/disk/by-path/` listing:
an entry is selected when its name contains `-fc-0x<wwn>-lun-<lun>` as a
substring; on symlink or multipath-lookup error the scan continues. -/
def findDiskLoop (wwn lun : String) (io : FS) : List String → String × String
  | [] => ("", "")
  | name :: rest =>
    if strContains name ("-fc-0x" ++ wwn ++ "-lun-" ++ lun) then
      match io.evalSymlinks ("/dev/disk/by-path/" ++ name) with
      | .ok disk =>
        match FindMultipathDeviceForDevice disk io with
        | (dm, none) => (disk, dm)
        | (_, some _) => findDiskLoop wwn lun io rest
      | .error _ => findDiskLoop wwn lun io rest
    else
      findDiskLoop wwn lun io rest

/-- Function `findDisk`: WWN+LUN lookup under `/dev/disk/by-path/`. -/
def findDisk (wwn lun : String) (io : FS) : String × String :=
  match io.readDir "/dev/disk/by-path/" with
  | .ok dirs => findDiskLoop wwn lun io dirs
  | .error _ => ("", "")

/-- The inner loop of `findDiskWWIDs` over the `/dev/disk/by-id/` listing:
an entry is selected only when its name equals `scsi-<wwid>` exactly; a
symlink failure aborts with `("", "")`; the `(disk, dm)` pair is returned
when the multipath lookup errors (`dm` is then the zero value `""`), and
on multipath-lookup success the scan continues — mirroring the `err1 != nil`
test in the source. -/
def findDiskWWIDsLoop (wwid : String) (io : FS) : List String → String × String
  | [] => ("", "")
  | name :: rest =>
    if name == "scsi-" ++ wwid then
      match io.evalSymlinks ("/dev/disk/by-id/" ++ name) with
      | .error _ => ("", "")
      | .ok disk =>
        match FindMultipathDeviceForDevice disk io with
        | (dm, some _) => (disk, dm)
        | (_, none) => findDiskWWIDsLoop wwid io rest
    else
      findDiskWWIDsLoop wwid io rest

/-- Function `findDiskWWIDs`: WWID lookup under `/dev/disk/by-id/`. -/
def findDiskWWIDs (wwid : String) (io : FS) : String × String :=
  match io.readDir "/dev/disk/by-id/" with
  | .ok dirs => findDiskWWIDsLoop wwid io dirs
  | .error _ => ("", "")

/-- The identifier list of `searchDisk`: `TargetWWNs` when non-empty,
otherwise `WWIDs`. -/
def diskIds (c : Connector) : List String :=
  if c.TargetWWNs.length != 0 then c.TargetWWNs else c.WWIDs

/-- One locator invocation of the inner loop of `searchDisk`: the
`len(c.TargetWWNs) != 0` test selects between the two lookups. -/
def locateDisk (c : Connector) (io : FS) (diskID : String) : String × String :=
  if c.TargetWWNs.length != 0 then findDisk diskID c.Lun io
  else findDiskWWIDs diskID io

/-- The inner `for _, diskID := range diskIds` loop of `searchDisk`:
`acc` is the incoming value of the `disk, dm` variables (they persist
across passes); each invocation overwrites both, and the loop breaks at
the first non-empty `dm`. -/
def searchPass (c : Connector) (io : FS) : List String → String × String → String × String
  | [], acc => acc
  | diskID :: rest, _acc =>
    let p := locateDisk c io diskID
    if p.2 != "" then p else searchPass c io rest p

/-- The world a search runs in: the filesystem snapshot before the SCSI
bus rescan and the snapshot after it (the rescan may expose new devices;
each snapshot is itself immutable, matching the stateless handler). -/
structure World where
  pre : FS
  post : FS

/-- The `for true` loop of `searchDisk`, made fuel-indexed (`fuel` bounds
the number of iterations still permitted; `none` means the loop did not
finish within the fuel).  The `rescaned` flag is an explicit parameter;
the call `scsiHostRescan(io); rescaned = true` is modelled by continuing
in `w.post` with the flag set.  The extra `Nat` counts rescans performed.
This is the literal unbounded loop of the source; its termination within
two iterations is a theorem, not an assumption. -/
def searchLoopF (c : Connector) (w : World) : Nat → Bool → FS → String × String →
    Option ((String × String) × Nat)
  | 0, _, _, _ => none
  | fuel + 1, rescaned, fs, acc =>
    let p := searchPass c fs (diskIds c) acc
    if rescaned || p.2 != "" then some (p, 0)
    else (searchLoopF c w fuel true w.post p).map (fun r => (r.1, r.2 + 1))

/-- The loop iteration entered with `rescaned = true`: the inner pass runs
once more and the `if rescaned || dm != ""` break then fires
unconditionally, performing no further rescan. -/
def searchLoopRescanned (c : Connector) (fs : FS) (acc : String × String) :
    (String × String) × Nat :=
  (searchPass c fs (diskIds c) acc, 0)

/-- The `for true` loop entered with `rescaned = false`: run the first
pass in `w.pre`; break if a multipath device was found, otherwise rescan
(move to `w.post`, counting one rescan) and run the final iteration.
`searchLoopF_eq_searchLoop` proves this equal to the literal loop
`searchLoopF` for every sufficient fuel. -/
def searchLoop (c : Connector) (w : World) (acc : String × String) :
    (String × String) × Nat :=
  let p := searchPass c w.pre (diskIds c) acc
  if p.2 != "" then (p, 0)
  else
    let r := searchLoopRescanned c w.post p
    (r.1, r.2 + 1)

/-- Function `searchDisk`: the two-phase search.  The final `disk, dm` pair decides
the result: both empty is the `no fc disk found` error, a non-empty `dm`
wins, otherwise the raw disk is returned. -/
def searchDisk (c : Connector) (w : World) : String × Option FcError :=
  let r := searchLoop c w ("", "")
  let disk := r.1.1
  let dm := r.1.2
  if disk == "" && dm == "" then ("", some .noFcDiskFound)
  else if dm != "" then (dm, none)
  else (disk, none)

/-- Number of bus rescans a `searchDisk` run performs. -/
def searchRescans (c : Connector) (w : World) : Nat :=
  (searchLoop c w ("", "")).2

/-- The sequence of `(disk, dm)` results of the locator invocations one
inner pass performs: the pass runs through `ids` and stops after the
first invocation returning a non-empty `dm`.
`searchPass_eq_trace` proves the pass's final variables are the last
entry of this trace. -/
def passTrace (c : Connector) (io : FS) : List String → List (String × String)
  | [] => []
  | id :: rest =>
    let p := locateDisk c io id
    if p.2 != "" then [p] else p :: passTrace c io rest

/-- The locator results of the whole two-phase search, in execution
order: the first pass's trace, followed by the second pass's trace when
the first found no multipath device. -/
def execTrace (c : Connector) (w : World) : List (String × String) :=
  let t1 := passTrace c w.pre (diskIds c)
  if (t1.getLastD ("", "")).2 != "" then t1
  else t1 ++ passTrace c w.post (diskIds c)

/-- Function `Attach`: run the search and return its device path or error. -/
def Attach (c : Connector) (w : World) : String × Option FcError :=
  match searchDisk c w with
  | (_, some err) => ("", some err)
  | (devicePath, none) => (devicePath, none)

/-- Modelled from the spec: segment processing of Go's `path.Clean`
(the standard library called by `path.Join` in the source is not part of
this repository).  `acc` is the output stack, most recent segment first:
empty and `.` segments are dropped, `..` pops a normal segment, is dropped
at the root of a rooted path, and accumulates otherwise. -/
def cleanSegs (rooted : Bool) (acc : List String) : List String → List String
  | [] => acc
  | s :: rest =>
    if s == "" || s == "." then cleanSegs rooted acc rest
    else if s == ".." then
      match acc with
      | [] => cleanSegs rooted (if rooted then [] else [".."]) rest
      | a :: as =>
        if a == ".." then cleanSegs rooted (s :: a :: as) rest
        else cleanSegs rooted as rest
    else cleanSegs rooted (s :: acc) rest

/-- Modelled from the spec: Go's `path.Clean` — shortest lexically
equivalent path (empty input cleans to `.`). -/
def goPathClean (p : String) : String :=
  if p == "" then "."
  else
    let rooted := strStartsWith p "/"
    let segs := (cleanSegs rooted [] (strSplit p '/')).reverse
    let out := joinSep "/" segs
    if rooted then (if out == "" then "/" else "/" ++ out)
    else (if out == "" then "." else out)

/-- Modelled from the spec: Go's `path.Join` — drop leading empty
elements, join the rest with `/`, and clean the result. -/
def goPathJoin (elems : List String) : String :=
  match elems.dropWhile (· == "") with
  | [] => ""
  | es => goPathClean (joinSep "/" es)

/-- Function `FindSlaveDevicesOnMultipath`: split a `/dev/dm-N` path; on shape
failure return no devices; otherwise list `/sys/block/<disk>/slaves/`
and return `/dev/<entry>` for every entry (a failing listing also yields
no devices). -/
def FindSlaveDevicesOnMultipath (dm : String) (io : FS) : List String :=
  let parts := strSplit dm '/'
  if parts.length != 3 || !strStartsWith (parts.getD 1 "") "dev" then []
  else
    let disk := parts.getD 2 ""
    match io.readDir (goPathJoin ["/sys/block/", disk, "/slaves/"]) with
    | .ok files => files.map (fun f => goPathJoin ["/dev/", f])
    | .error _ => []

/-- Function `removeFromScsiSubsystem`: write `1` to
`/sys/block/<deviceName>/device/delete`, discarding the write result. -/
def removeFromScsiSubsystem (deviceName : String) (io : FS) : WriteAttempt :=
  let fileName := "/sys/block/" ++ deviceName ++ "/device/delete"
  { path := fileName, data := "1", result := io.writeFile fileName "1" 438 }

/-- Function `detachFCDisk`: reject device paths without the `/dev/` prefix;
otherwise take the last `/`-separated component and attempt the SCSI
removal write, returning `nil` regardless of the write's outcome. -/
def detachFCDisk (devicePath : String) (io : FS) : Option FcError × List WriteAttempt :=
  if !strStartsWith devicePath "/dev/" then
    (some (.invalidDeviceName devicePath), [])
  else
    let arr := strSplit devicePath '/'
    let dev := arr.getLastD ""
    (none, [removeFromScsiSubsystem dev io])

/-- The `for _, device := range devices` loop of `Detach`: every device is
attempted, a failure replaces `lastErr` (wrapped in the
`fc: detachFCDisk failed` message naming the device), and the final
`lastErr` is what `Detach` returns. -/
def detachLoop (io : FS) : List String → Option FcError → Option FcError × List WriteAttempt
  | [], lastErr => (lastErr, [])
  | device :: rest, lastErr =>
    let r := detachFCDisk device io
    let lastErr2 :=
      match r.1 with
      | some err => some (.detachFailed device err)
      | none => lastErr
    let rst := detachLoop io rest lastErr2
    (rst.1, r.2 ++ rst.2)

/-- The device list `Detach` builds from the resolved path: the multipath
slaves when the target is a `/dev/dm-` device, otherwise the resolved
path itself. -/
def detachDeviceList (dstPath : String) (io : FS) : List String :=
  if strStartsWith dstPath "/dev/dm-" then FindSlaveDevicesOnMultipath dstPath io
  else [dstPath]

/-- Function `Detach`: resolve the symlink (a resolution failure is returned
directly), build the device list, run the removal loop and return its
last error together with the trace of attempted removal writes. -/
def Detach (devicePath : String) (io : FS) : Option FcError × List WriteAttempt :=
  match io.evalSymlinks devicePath with
  | .error err => (some err, [])
  | .ok dstPath => detachLoop io (detachDeviceList dstPath io) none

/-! ### Concrete filesystem fixtures used by witnesses and counterexamples -/

/-- A world with one by-path entry for WWN `w1`, LUN `1`, resolving to
`/dev/sda`, no device-mapper devices, and no entry for WWN `w2`. -/
def fsRawOnly : FS where
  readDir := fun p =>
    if p == "/dev/disk/by-path/" then .ok ["pci-fc-0xw1-lun-1"]
    else if p == "/sys/block/" then .ok []
    else .error (.ioErr "nodir")
  lstat := fun _ => .error (.ioErr "nolstat")
  evalSymlinks := fun p =>
    if p == "/dev/disk/by-path/pci-fc-0xw1-lun-1" then .ok "/dev/sda"
    else if p == "/dev/sda" then .ok "/dev/sda"
    else .error (.ioErr "nolink")
  writeFile := fun _ _ _ => .ok ()

/-- A world where the by-path entry for WWN `w1` resolves to `/dev/sda`,
which is a slave of `dm-0`. -/
def fsWithDm : FS where
  readDir := fun p =>
    if p == "/dev/disk/by-path/" then .ok ["pci-fc-0xw1-lun-1"]
    else if p == "/sys/block/" then .ok ["sda", "dm-0"]
    else .error (.ioErr "nodir")
  lstat := fun p =>
    if p == "/sys/block/dm-0/slaves/sda" then .ok ()
    else .error (.ioErr "nolstat")
  evalSymlinks := fun p =>
    if p == "/dev/disk/by-path/pci-fc-0xw1-lun-1" then .ok "/dev/sda"
    else if p == "/dev/sda" then .ok "/dev/sda"
    else .error (.ioErr "nolink")
  writeFile := fun _ _ _ => .ok ()

/-- A world with a by-id entry `scsi-wid1` resolving to `/dev/sda` where
the multipath lookup fails (the `/sys/block/` listing errors). -/
def fsWwidErr : FS where
  readDir := fun p =>
    if p == "/dev/disk/by-id/" then .ok ["scsi-wid1"]
    else .error (.ioErr "nodir")
  lstat := fun _ => .error (.ioErr "nolstat")
  evalSymlinks := fun p =>
    if p == "/dev/disk/by-id/scsi-wid1" then .ok "/dev/sda"
    else if p == "/dev/sda" then .ok "/dev/sda"
    else .error (.ioErr "nolink")
  writeFile := fun _ _ _ => .ok ()

/-- A world with a by-id entry `scsi-wid1` resolving to `/dev/sda` where
the multipath lookup succeeds (finding no parent). -/
def fsWwidOk : FS where
  readDir := fun p =>
    if p == "/dev/disk/by-id/" then .ok ["scsi-wid1"]
    else if p == "/sys/block/" then .ok []
    else .error (.ioErr "nodir")
  lstat := fun _ => .error (.ioErr "nolstat")
  evalSymlinks := fun p =>
    if p == "/dev/disk/by-id/scsi-wid1" then .ok "/dev/sda"
    else if p == "/dev/sda" then .ok "/dev/sda"
    else .error (.ioErr "nolink")
  writeFile := fun _ _ _ => .ok ()

/-- A world for detach tests: `/dev/sda` resolves to itself, a bogus link
resolves outside `/dev/`, and all writes succeed. -/
def fsDetach : FS where
  readDir := fun _ => .error (.ioErr "nodir")
  lstat := fun _ => .error (.ioErr "nolstat")
  evalSymlinks := fun p =>
    if p == "/dev/sda" then .ok "/dev/sda"
    else if p == "/badlink" then .ok "/tmp/x"
    else .error (.ioErr "nolink")
  writeFile := fun _ _ _ => .ok ()

/-- A world with two SCSI hosts where the write to `host0`'s scan file
fails and the write to `host1`'s succeeds. -/
def fsHosts : FS where
  readDir := fun p =>
    if p == "/sys/class/scsi_host/" then .ok ["host0", "host1"]
    else .error (.ioErr "nodir")
  lstat := fun _ => .error (.ioErr "nolstat")
  evalSymlinks := fun _ => .error (.ioErr "nolink")
  writeFile := fun p _ _ =>
    if p == "/sys/class/scsi_host/host0/scan" then .error (.ioErr "nowrite")
    else .ok ()

/-- Connector with two target WWNs, only the first of which resolves. -/
def cTwoWwns : Connector := { TargetWWNs := ["w1", "w2"], Lun := "1" }

/-- Connector with a single target WWN. -/
def cOneWwn : Connector := { TargetWWNs := ["w1"], Lun := "1" }

/-- The static world built from `fsRawOnly` (the rescan changes nothing). -/
def wRawOnly : World := ⟨fsRawOnly, fsRawOnly⟩

/-- The static world built from `fsWithDm`. -/
def wWithDm : World := ⟨fsWithDm, fsWithDm⟩

/-! ### Helper lemmas -/

/-- Helper `findDmParent` returns the image under `/dev/ ++ ·` of the first
listing entry that has the `dm-` prefix and a statable slave link. -/
theorem findDmParent_eq_find (disk : String) (io : FS) (dirs : List String) :
    findDmParent disk io dirs =
      (dirs.find? (fun n =>
        strStartsWith n "dm-" && exOk (io.lstat ("/sys/block/" ++ n ++ "/slaves/" ++ disk)))).map
        (fun n => "/dev/" ++ n) := by
  induction dirs with
  | nil => rfl
  | cons name rest ih =>
    by_cases h : (strStartsWith name "dm-" &&
        exOk (io.lstat ("/sys/block/" ++ name ++ "/slaves/" ++ disk))) = true
    · simp [findDmParent, List.find?, h]
    · simp only [Bool.not_eq_true] at h
      simp [findDmParent, List.find?, h, ih]

/-! ### Claim theorems -/

/-- C5: for every resolved symlink target, if the target splits on `/`
into exactly three segments whose second segment has the prefix `dev`,
`findDeviceForPath` returns the third segment with no error; otherwise it
fails with the `Illegal path` (InvalidPath) error naming the target. -/
theorem C5_parse_raw_device_name (p : String) (io : FS) (target : String)
    (h : io.evalSymlinks p = .ok target) :
    (((strSplit target '/').length = 3 ∧
        strStartsWith ((strSplit target '/').getD 1 "") "dev" = true) →
      findDeviceForPath p io = ((strSplit target '/').getD 2 "", none)) ∧
    (((strSplit target '/').length ≠ 3 ∨
        strStartsWith ((strSplit target '/').getD 1 "") "dev" = false) →
      findDeviceForPath p io = ("", some (.illegalPath target))) := by
  constructor
  · rintro ⟨h3, hdev⟩
    simp [findDeviceForPath, h]
    exact ⟨h3, by simpa using hdev⟩
  · rintro (h3 | hdev)
    · simp [findDeviceForPath, h]
      intro hh
      exact absurd hh h3
    · simp [findDeviceForPath, h]
      intro _
      simpa using hdev

/-- Witness for C5: in `fsDetach`, the path `/dev/sda` resolves to
`/dev/sda`, which parses to the device name `sda`; the path `/badlink`
resolves to `/tmp/x`, which is rejected as an illegal path. -/
theorem C5_parse_raw_device_name_witness :
    findDeviceForPath "/dev/sda" fsDetach = ("sda", none) ∧
    findDeviceForPath "/badlink" fsDetach = ("", some (.illegalPath "/tmp/x")) := by
  constructor
  · have h := (C5_parse_raw_device_name "/dev/sda" fsDetach "/dev/sda" (by rfl)).1
      (by constructor <;> decide)
    simpa using h
  · have h := (C5_parse_raw_device_name "/badlink" fsDetach "/tmp/x" (by rfl)).2
      (Or.inr (by decide))
    simpa using h

/-- C6: when the device path parses to a raw device name `disk`,
`FindMultipathDeviceForDevice` propagates a failure of the `/sys/block/`
listing; on a successful listing it returns `/dev/<n>` for the first
entry `n` (in listing order) with the `dm-` prefix whose
`slaves/<disk>` entry stats successfully, and the empty result with no
error when no entry matches. -/
theorem C6_find_multipath_parent (device : String) (io : FS) (disk : String)
    (h : findDeviceForPath device io = (disk, none)) :
    (∀ e, io.readDir "/sys/block/" = .error e →
      FindMultipathDeviceForDevice device io = ("", some e)) ∧
    (∀ dirs, io.readDir "/sys/block/" = .ok dirs →
      FindMultipathDeviceForDevice device io =
        match dirs.find? (fun n =>
            strStartsWith n "dm-" &&
              exOk (io.lstat ("/sys/block/" ++ n ++ "/slaves/" ++ disk))) with
        | some n => ("/dev/" ++ n, none)
        | none => ("", none)) := by
  constructor
  · intro e he
    simp only [FindMultipathDeviceForDevice, h, he]
  · intro dirs hdirs
    simp only [FindMultipathDeviceForDevice, h, hdirs, findDmParent_eq_find]
    cases hf : dirs.find? (fun n =>
        strStartsWith n "dm-" &&
          exOk (io.lstat ("/sys/block/" ++ n ++ "/slaves/" ++ disk))) <;>
      simp [hf]

/-- Witness for C6: in `fsWithDm`, `/dev/sda` parses to `sda` and the
listing `["sda", "dm-0"]` yields `dm-0` as the first matching entry, so
the multipath parent is `/dev/dm-0`; in `fsRawOnly` the empty listing
yields the empty result with no error. -/
theorem C6_find_multipath_parent_witness :
    FindMultipathDeviceForDevice "/dev/sda" fsWithDm = ("/dev/dm-0", none) ∧
    FindMultipathDeviceForDevice "/dev/sda" fsRawOnly = ("", none) := by
  constructor
  · have h := (C6_find_multipath_parent "/dev/sda" fsWithDm "sda" (by decide)).2
      ["sda", "dm-0"] (by rfl)
    simpa using h
  · have h := (C6_find_multipath_parent "/dev/sda" fsRawOnly "sda" (by decide)).2
      [] (by rfl)
    simpa using h

/-- C9: `scsiHostRescan` attempts a write of the literal `- - -` to
`<entry>/scan` for every entry of the `/sys/class/scsi_host/` listing —
the attempted targets and data depend only on the listing, never on the
outcome of any individual write, so a failing write cannot abort the
fan-out — and a failing listing makes the rescan attempt nothing at all
(its only hard failure path). -/
theorem C9_scsi_host_rescan (io : FS) :
    (∀ e, io.readDir "/sys/class/scsi_host/" = .error e → scsiHostRescan io = []) ∧
    (∀ dirs, io.readDir "/sys/class/scsi_host/" = .ok dirs →
      (scsiHostRescan io).map (fun a => (a.path, a.data)) =
        dirs.map (fun f => ("/sys/class/scsi_host/" ++ f ++ "/scan", "- - -"))) := by
  constructor
  · intro e he
    simp [scsiHostRescan, he]
  · intro dirs hdirs
    simp [scsiHostRescan, hdirs]

/-- Witness for C9: with hosts `host0` and `host1` where the write to
`host0`'s scan file fails, both scan files are still attempted with
`- - -`, and the failure of `host0`'s write is visible in the trace. -/
theorem C9_scsi_host_rescan_witness :
    (scsiHostRescan fsHosts).map (fun a => (a.path, a.data)) =
      [("/sys/class/scsi_host/host0/scan", "- - -"),
       ("/sys/class/scsi_host/host1/scan", "- - -")] ∧
    (scsiHostRescan fsHosts).map (fun a => exOk a.result) = [false, true] := by
  constructor
  · exact ((C9_scsi_host_rescan fsHosts).2 ["host0", "host1"] (by rfl)).trans (by rfl)
  · rfl

/-- The by-id loop skips every entry that is not the exact match, so a
run of non-matching entries yields the empty result. -/
theorem findDiskWWIDsLoop_nomatch (wwid : String) (io : FS) (l : List String)
    (h : ∀ n ∈ l, n ≠ "scsi-" ++ wwid) :
    findDiskWWIDsLoop wwid io l = ("", "") := by
  induction l with
  | nil => rfl
  | cons n rest ih =>
    have hn : (n == "scsi-" ++ wwid) = false :=
      beq_eq_false_iff_ne.mpr (h n (List.mem_cons_self n rest))
    simp only [findDiskWWIDsLoop, hn, Bool.false_eq_true, if_false]
    exact ih (fun m hm => h m (List.mem_cons_of_mem n hm))

/-- C4: in `findDiskWWIDs`, when the by-id entry matches exactly and its
symlink resolves to a raw disk, the `(raw disk, multipath)` pair is
returned only when the multipath-parent lookup errors (the pair then
carries the lookup's zero-value `dm`); when the lookup succeeds the
result is dropped and the scan continues, ultimately returning the empty
pair when no further entry matches. -/
theorem C4_wwid_lookup_inverted (wwid : String) (io : FS) (rest : List String) (disk : String)
    (hdir : io.readDir "/dev/disk/by-id/" = .ok (("scsi-" ++ wwid) :: rest))
    (hlink : io.evalSymlinks ("/dev/disk/by-id/" ++ ("scsi-" ++ wwid)) = .ok disk) :
    (∀ e, (FindMultipathDeviceForDevice disk io).2 = some e →
      findDiskWWIDs wwid io = (disk, (FindMultipathDeviceForDevice disk io).1)) ∧
    ((FindMultipathDeviceForDevice disk io).2 = none →
      findDiskWWIDs wwid io = findDiskWWIDsLoop wwid io rest) ∧
    ((FindMultipathDeviceForDevice disk io).2 = none →
      (∀ n ∈ rest, n ≠ "scsi-" ++ wwid) →
      findDiskWWIDs wwid io = ("", "")) := by
  have hload : findDiskWWIDs wwid io =
      findDiskWWIDsLoop wwid io (("scsi-" ++ wwid) :: rest) := by
    simp [findDiskWWIDs, hdir]
  have hstep : ∀ r : String × Option FcError,
      FindMultipathDeviceForDevice disk io = r →
      findDiskWWIDsLoop wwid io (("scsi-" ++ wwid) :: rest) =
        match r with
        | (dm, some _) => (disk, dm)
        | (_, none) => findDiskWWIDsLoop wwid io rest := by
    intro r hr
    simp only [findDiskWWIDsLoop, beq_self_eq_true, if_true, hlink, hr]
  refine ⟨?_, ?_, ?_⟩
  · intro e he
    rw [hload, hstep (FindMultipathDeviceForDevice disk io) rfl]
    rcases hm : FindMultipathDeviceForDevice disk io with ⟨dm, e'⟩
    rw [hm] at he
    cases e' with
    | none => simp at he
    | some e'' => simp [hm]
  · intro hn
    rw [hload, hstep (FindMultipathDeviceForDevice disk io) rfl]
    rcases hm : FindMultipathDeviceForDevice disk io with ⟨dm, e'⟩
    rw [hm] at hn
    cases e' with
    | none => simp
    | some e'' => simp at hn
  · intro hn hrest
    rw [hload, hstep (FindMultipathDeviceForDevice disk io) rfl]
    rcases hm : FindMultipathDeviceForDevice disk io with ⟨dm, e'⟩
    rw [hm] at hn
    cases e' with
    | none => simpa using findDiskWWIDsLoop_nomatch wwid io rest hrest
    | some e'' => simp at hn

/-- Witness for C4: in `fsWwidErr` the multipath lookup errors and the
raw pair `("/dev/sda", "")` is returned; in `fsWwidOk` the lookup
succeeds (finding no parent) and the scan drops the result, returning
the empty pair. -/
theorem C4_wwid_lookup_inverted_witness :
    findDiskWWIDs "wid1" fsWwidErr = ("/dev/sda", "") ∧
    findDiskWWIDs "wid1" fsWwidOk = ("", "") := by
  constructor
  · have h := (C4_wwid_lookup_inverted "wid1" fsWwidErr [] "/dev/sda"
      (by rfl) (by rfl)).1 (.ioErr "nodir") (by rfl)
    simpa using h
  · exact (C4_wwid_lookup_inverted "wid1" fsWwidOk [] "/dev/sda"
      (by rfl) (by rfl)).2.2 (by rfl) (by simp)

/-- C7: asymmetric name matching of the two lookup strategies.  The
by-path loop skips an entry iff its name does not contain the fragment
`-fc-0x<wwn>-lun-<lun>` — a substring test that is not anchored, since a
name with arbitrary text on both sides of the fragment still matches —
and processes any containing entry (shown for a successfully resolved
one).  The by-id loop skips every entry that is not exactly
`scsi-<wwid>`, even one that merely contains `scsi-<wwid>` as a proper
substring. -/
theorem C7_matching_asymmetry (wwn lun wwid : String) (io : FS)
    (name : String) (rest : List String) :
    (strContains name ("-fc-0x" ++ wwn ++ "-lun-" ++ lun) = false →
      findDiskLoop wwn lun io (name :: rest) = findDiskLoop wwn lun io rest) ∧
    (∀ pre suf : String,
      strContains (pre ++ ("-fc-0x" ++ wwn ++ "-lun-" ++ lun) ++ suf)
        ("-fc-0x" ++ wwn ++ "-lun-" ++ lun) = true) ∧
    (∀ disk, strContains name ("-fc-0x" ++ wwn ++ "-lun-" ++ lun) = true →
      io.evalSymlinks ("/dev/disk/by-path/" ++ name) = .ok disk →
      (FindMultipathDeviceForDevice disk io).2 = none →
      findDiskLoop wwn lun io (name :: rest) =
        (disk, (FindMultipathDeviceForDevice disk io).1)) ∧
    (name ≠ "scsi-" ++ wwid →
      findDiskWWIDsLoop wwid io (name :: rest) = findDiskWWIDsLoop wwid io rest) ∧
    (strContains name ("scsi-" ++ wwid) = true → name ≠ "scsi-" ++ wwid →
      findDiskWWIDsLoop wwid io (name :: rest) = findDiskWWIDsLoop wwid io rest) := by
  have hskip : name ≠ "scsi-" ++ wwid →
      findDiskWWIDsLoop wwid io (name :: rest) = findDiskWWIDsLoop wwid io rest := by
    intro hne
    have hn : (name == "scsi-" ++ wwid) = false := beq_eq_false_iff_ne.mpr hne
    simp only [findDiskWWIDsLoop, hn, Bool.false_eq_true, if_false]
  refine ⟨?_, ?_, ?_, hskip, fun _ => hskip⟩
  · intro hc
    simp only [findDiskLoop, hc, Bool.false_eq_true, if_false]
  · intro pre suf
    simp only [strContains, decide_eq_true_eq]
    have : pre.toList ++ ("-fc-0x" ++ wwn ++ "-lun-" ++ lun).toList ++ suf.toList =
        (pre ++ ("-fc-0x" ++ wwn ++ "-lun-" ++ lun) ++ suf).toList := by
      simp [String.toList]
    exact this ▸ List.infix_append _ _ _
  · intro disk hc hlink hm
    rcases hr : FindMultipathDeviceForDevice disk io with ⟨dm, e'⟩
    rw [hr] at hm
    cases e' with
    | some e => simp at hm
    | none => simp only [findDiskLoop, hc, if_true, hlink, hr]

/-- Witness for C7: in `fsRawOnly`, the by-path entry
`pci-fc-0xw1-lun-1` contains the fragment for WWN `w1` with a prefix
around it and is selected, resolving to `/dev/sda`; it does not contain
the fragment for WWN `w2` and is skipped; and a by-id scan for `wid1`
skips the distinct name `xscsi-wid1x` even though it contains
`scsi-wid1`. -/
theorem C7_matching_asymmetry_witness :
    findDiskLoop "w1" "1" fsRawOnly ["pci-fc-0xw1-lun-1"] = ("/dev/sda", "") ∧
    findDiskLoop "w2" "1" fsRawOnly ["pci-fc-0xw1-lun-1"] = ("", "") ∧
    findDiskWWIDsLoop "wid1" fsRawOnly ["xscsi-wid1x"] = ("", "") ∧
    strContains ("pci" ++ ("-fc-0xw1-lun-1") ++ "") ("-fc-0xw1-lun-1") = true := by
  refine ⟨?_, ?_, ?_,
    (C7_matching_asymmetry "w1" "1" "wid1" fsRawOnly "x" []).2.1 "pci" ""⟩
  · have h := (C7_matching_asymmetry "w1" "1" "wid1" fsRawOnly
      "pci-fc-0xw1-lun-1" []).2.2.1 "/dev/sda" (by decide) (by rfl) (by rfl)
    simpa using h
  · exact (C7_matching_asymmetry "w2" "1" "wid1" fsRawOnly
      "pci-fc-0xw1-lun-1" []).1 (by decide)
  · exact (C7_matching_asymmetry "w1" "1" "wid1" fsRawOnly
      "xscsi-wid1x" []).2.2.2.2 (by decide) (by decide)

/-- Consing an element onto a list shifts the default of a last-element
lookup under `Option.or`. -/
theorem getLast_or_shift {α : Type} (l : List α) (x : α) (a : Option α) :
    ((x :: l).getLast?).or a = (l.getLast?).or (some x) := by
  cases l with
  | nil => rfl
  | cons y ys =>
    rw [List.getLast?_cons_cons]
    have hs : (y :: ys).getLast?.isSome := List.getLast?_isSome.mpr (by simp)
    cases hys : (y :: ys).getLast? with
    | none => rw [hys] at hs; simp at hs
    | some z => rfl

/-- The removal loop of `Detach`, characterised: the returned error is
the last per-device failure (wrapped with the failing device's name),
falling back to the incoming `lastErr`, and the write trace is the
concatenation of every device's own removal attempts, in list order and
independent of any failures. -/
theorem detachLoop_eq (io : FS) (devices : List String) (acc : Option FcError) :
    detachLoop io devices acc =
      (((devices.filterMap
          (fun d => ((detachFCDisk d io).1).map (fun e => FcError.detachFailed d e))).getLast?).or acc,
       (devices.map (fun d => (detachFCDisk d io).2)).flatten) := by
  induction devices generalizing acc with
  | nil => simp [detachLoop]
  | cons d rest ih =>
    cases hd : (detachFCDisk d io).1 with
    | none =>
      simp only [detachLoop, hd, List.filterMap_cons, List.map_cons, List.flatten, hd,
        Option.map_none, ih]
      simp [hd]
    | some e =>
      simp only [detachLoop, hd, ih]
      simp [List.filterMap_cons, hd, getLast_or_shift]

/-- The per-device error of `detachFCDisk` is decided by the `/dev/`
prefix alone; the removal write's outcome is discarded. -/
theorem detachFCDisk_fst (d : String) (io : FS) :
    (detachFCDisk d io).1 =
      if strStartsWith d "/dev/" then none else some (.invalidDeviceName d) := by
  cases hb : strStartsWith d "/dev/" <;> simp [detachFCDisk, hb]

/-- C3: once `Detach` has resolved its input, it attempts removal of
every device of its device list in order — the write trace is the
in-order concatenation of each device's removal attempts, regardless of
failures on earlier devices — and it returns the last per-device failure
when one exists (earlier failures are dropped) and no error otherwise. -/
theorem C3_detach_last_failure (devicePath : String) (io : FS) (dstPath : String)
    (h : io.evalSymlinks devicePath = .ok dstPath) :
    Detach devicePath io =
      (((detachDeviceList dstPath io).filterMap
          (fun d => ((detachFCDisk d io).1).map (fun e => FcError.detachFailed d e))).getLast?,
       ((detachDeviceList dstPath io).map (fun d => (detachFCDisk d io).2)).flatten) := by
  simp [Detach, h, detachLoop_eq, Option.or_none]

/-- Witness for C3: detaching `/dev/sda` (which resolves to itself)
attempts exactly its removal write and returns no error; detaching
`/badlink` (which resolves to `/tmp/x`, outside `/dev/`) attempts
nothing and returns the wrapped failure for `/tmp/x`. -/
theorem C3_detach_last_failure_witness :
    Detach "/dev/sda" fsDetach =
      (none, [⟨"/sys/block/sda/device/delete", "1", .ok ()⟩]) ∧
    Detach "/badlink" fsDetach =
      (some (.detachFailed "/tmp/x" (.invalidDeviceName "/tmp/x")), []) := by
  constructor
  · exact (C3_detach_last_failure "/dev/sda" fsDetach "/dev/sda" (by rfl)).trans (by rfl)
  · exact (C3_detach_last_failure "/badlink" fsDetach "/tmp/x" (by rfl)).trans (by rfl)

/-- C10 (implicit): after `Detach` resolves its input symlink, it
returns an error iff some device path in its removal set lacks the
`/dev/` prefix; for every path with the prefix, `detachFCDisk` returns
no error whatever the removal write's outcome — so a failed write to
`/sys/block/<leaf>/device/delete` can never surface as a per-device
failure. -/
theorem C10_detach_error_needs_bad_path (devicePath : String) (io : FS) (dstPath : String)
    (h : io.evalSymlinks devicePath = .ok dstPath) :
    ((Detach devicePath io).1.isSome ↔
      ∃ d ∈ detachDeviceList dstPath io, strStartsWith d "/dev/" = false) ∧
    (∀ d, strStartsWith d "/dev/" = true → (detachFCDisk d io).1 = none) := by
  constructor
  · have hD : (Detach devicePath io).1 =
        ((detachDeviceList dstPath io).filterMap
          (fun d => ((detachFCDisk d io).1).map (fun e => FcError.detachFailed d e))).getLast? := by
      simp [Detach, h, detachLoop_eq, Option.or_none]
    rw [hD]
    rw [List.getLast?_isSome]
    constructor
    · intro hne
      rcases List.exists_mem_of_ne_nil _ hne with ⟨x, hx⟩
      rcases List.mem_filterMap.mp hx with ⟨d, hd, hfd⟩
      refine ⟨d, hd, ?_⟩
      rw [detachFCDisk_fst] at hfd
      cases hb : strStartsWith d "/dev/" with
      | true => rw [hb] at hfd; simp at hfd
      | false => rfl
    · rintro ⟨d, hd, hb⟩
      intro hnil
      have := List.filterMap_eq_nil_iff.mp hnil d hd
      rw [detachFCDisk_fst, hb] at this
      simp at this
  · intro d hb
    rw [detachFCDisk_fst, hb]
    rfl

/-- Witness for C10: the resolved target `/tmp/x` of `/badlink` lacks
the `/dev/` prefix, so `Detach` reports an error; `/dev/sda` has the
prefix, so its `detachFCDisk` reports none even though the removal write
is simply discarded. -/
theorem C10_detach_error_needs_bad_path_witness :
    (Detach "/badlink" fsDetach).1.isSome = true ∧
    (detachFCDisk "/dev/sda" fsDetach).1 = none := by
  constructor
  · exact (C10_detach_error_needs_bad_path "/badlink" fsDetach "/tmp/x" (by rfl)).1.mpr
      ⟨"/tmp/x", by decide, by decide⟩
  · exact (C10_detach_error_needs_bad_path "/dev/sda" fsDetach "/dev/sda" (by rfl)).2
      "/dev/sda" (by decide)

/-- A cons shifts the default of a last-element lookup. -/
theorem getLastD_cons_shift {α : Type} (p : α) (l : List α) (a : α) :
    (p :: l).getLastD a = l.getLastD p := by
  cases l <;> rfl

/-- Last-element lookup distributes over append. -/
theorem getLastD_append {α : Type} (l1 l2 : List α) (d : α) :
    (l1 ++ l2).getLastD d = l2.getLastD (l1.getLastD d) := by
  cases l2 with
  | nil => simp
  | cons x xs =>
    cases hx : (x :: xs).getLast? with
    | none =>
      have hs : (x :: xs).getLast?.isSome := List.getLast?_isSome.mpr (by simp)
      rw [hx] at hs; simp at hs
    | some z =>
      simp only [List.getLastD_eq_getLast?, List.getLast?_append, hx, Option.or_some,
        Option.getD_some]

/-- The final `disk, dm` variables of one inner pass are the last entry
of its locator trace (or the incoming value when no invocation ran). -/
theorem searchPass_eq_trace (c : Connector) (io : FS) (l : List String) :
    ∀ acc, searchPass c io l acc = (passTrace c io l).getLastD acc := by
  induction l with
  | nil => intro acc; rfl
  | cons id rest ih =>
    intro acc
    simp only [searchPass, passTrace]
    by_cases hp : ((locateDisk c io id).2 != "") = true
    · rw [if_pos hp, if_pos hp]
      rfl
    · rw [if_neg hp, if_neg hp, ih, getLastD_cons_shift]

/-- A trace entry with a non-empty `dm` can only be the last entry of
its pass (the pass breaks at the first multipath hit). -/
theorem passTrace_dm_last (c : Connector) (io : FS) (l : List String) :
    ∀ q ∈ passTrace c io l, q.2 ≠ "" → ∀ d, (passTrace c io l).getLastD d = q := by
  induction l with
  | nil => intro q hq; simp [passTrace] at hq
  | cons id rest ih =>
    intro q hq hdm d
    revert hq
    simp only [passTrace]
    by_cases hp : ((locateDisk c io id).2 != "") = true
    · rw [if_pos hp]
      intro hq
      simp only [List.mem_singleton] at hq
      simp [hq]
    · rw [if_neg hp]
      intro hq
      rcases List.mem_cons.mp hq with hq | hq
      · exfalso
        apply hdm
        rw [hq]
        simpa using hp
      · rw [getLastD_cons_shift]
        exact ih q hq hdm _

/-- The final `disk, dm` pair of the two-phase loop is the last entry of
the execution trace. -/
theorem searchLoop_fst_eq_trace (c : Connector) (w : World) :
    (searchLoop c w ("", "")).1 = (execTrace c w).getLastD ("", "") := by
  simp only [searchLoop, searchLoopRescanned, execTrace, searchPass_eq_trace]
  by_cases hp : (((passTrace c w.pre (diskIds c)).getLastD ("", "")).2 != "") = true
  · rw [if_pos hp, if_pos hp]
  · rw [if_neg hp, if_neg hp, getLastD_append]

/-- A trace entry with a non-empty `dm` is the last entry of the whole
execution trace. -/
theorem execTrace_dm_last (c : Connector) (w : World) (q : String × String)
    (hq : q ∈ execTrace c w) (hdm : q.2 ≠ "") :
    (execTrace c w).getLastD ("", "") = q := by
  revert hq
  simp only [execTrace]
  by_cases hp : (((passTrace c w.pre (diskIds c)).getLastD ("", "")).2 != "") = true
  · rw [if_pos hp]
    intro hq
    exact passTrace_dm_last c w.pre (diskIds c) q hq hdm _
  · rw [if_neg hp]
    intro hq
    rcases List.mem_append.mp hq with hq | hq
    · exfalso
      have hlast := passTrace_dm_last c w.pre (diskIds c) q hq hdm ("", "")
      apply hdm
      rw [← hlast]
      simpa using hp
    · rw [getLastD_append]
      exact passTrace_dm_last c w.post (diskIds c) q hq hdm _

/-- Counterexample to C1 as stated: with WWNs `["w1", "w2"]` in the
static world `wRawOnly`, the first locator invocation discovers the raw
device `/dev/sda` (it appears in the execution trace), yet `searchDisk`
fails with the `no fc disk found` error, because the later invocation
for `w2` overwrote the `disk` variable with its empty result — so the
search does *not* return the most recently discovered raw device, and
`NotFound` is not restricted to runs where nothing was ever found. -/
theorem C1_counterexample :
    searchDisk cTwoWwns wRawOnly = ("", some .noFcDiskFound) ∧
    ("/dev/sda", "") ∈ execTrace cTwoWwns wRawOnly ∧
    ("/dev/sda" : String) ≠ "" := by
  refine ⟨by decide, by decide, by decide⟩

/-- C1 (amended): `searchDisk` returns the multipath device path if one
was found (the search stops at the first locator invocation yielding
one, so it is the last trace entry); otherwise it returns the raw-device
component of the *final* locator invocation when that is non-empty —
raw devices discovered by earlier invocations are overwritten — and it
fails with `no fc disk found` iff the final locator invocation of the
final pass yielded neither a raw nor a multipath device (in particular
when no invocation ran at all). -/
theorem C1_resolution_policy (c : Connector) (w : World) :
    (∀ q ∈ execTrace c w, q.2 ≠ "" → searchDisk c w = (q.2, none)) ∧
    (∀ d : String, (execTrace c w).getLastD ("", "") = (d, "") → d ≠ "" →
      searchDisk c w = (d, none)) ∧
    ((searchDisk c w).2 = some .noFcDiskFound ↔
      (execTrace c w).getLastD ("", "") = ("", "")) := by
  have hD : ∀ r : (String × String) × Nat, searchLoop c w ("", "") = r →
      searchDisk c w =
        (if r.1.1 == "" && r.1.2 == "" then ("", some .noFcDiskFound)
         else if r.1.2 != "" then (r.1.2, none) else (r.1.1, none)) := by
    intro r hr
    simp only [searchDisk, hr]
  refine ⟨?_, ?_, ?_⟩
  · intro q hq hdm
    have hlast := execTrace_dm_last c w q hq hdm
    have h1 := searchLoop_fst_eq_trace c w
    rw [hlast] at h1
    rw [hD ((q.1, q.2), (searchLoop c w ("", "")).2) (by rw [← h1])]
    have h2 : (q.2 == "") = false := beq_eq_false_iff_ne.mpr hdm
    have hbne : (q.2 != "") = true := by simp [bne, h2]
    rw [if_neg (by simp [h2]), if_pos hbne]
  · intro d hlast hd
    have h1 := searchLoop_fst_eq_trace c w
    rw [hlast] at h1
    rw [hD ((d, ""), (searchLoop c w ("", "")).2) (by rw [← h1])]
    have h2 : (d == "") = false := beq_eq_false_iff_ne.mpr hd
    rw [if_neg (by simp [h2]), if_neg (by simp [bne])]
  · have h1 := searchLoop_fst_eq_trace c w
    rcases hlast : (execTrace c w).getLastD ("", "") with ⟨disk, dm⟩
    rw [hlast] at h1
    rw [hD ((disk, dm), (searchLoop c w ("", "")).2) (by rw [← h1])]
    by_cases hdisk : disk = ""
    · by_cases hdm : dm = ""
      · subst hdisk; subst hdm
        simp
      · have h2 : (dm == "") = false := beq_eq_false_iff_ne.mpr hdm
        have hbne : (dm != "") = true := by simp [bne, h2]
        rw [if_neg (by simp [h2]), if_pos hbne]
        simp [hdm]
    · have h2 : (disk == "") = false := beq_eq_false_iff_ne.mpr hdisk
      rw [if_neg (by simp [h2])]
      by_cases hdm : dm = ""
      · subst hdm
        rw [if_neg (by simp [bne])]
        simp [hdisk]
      · have h4 : (dm == "") = false := beq_eq_false_iff_ne.mpr hdm
        have hbne : (dm != "") = true := by simp [bne, h4]
        rw [if_pos hbne]
        simp [hdm]

/-- Witness for C1 (amended): in `wWithDm` the single locator invocation
finds multipath parent `/dev/dm-0` for `/dev/sda`, and `searchDisk`
returns it; in `wRawOnly` with the single WWN `w1` the final invocation
finds the raw `/dev/sda` and no multipath, and `searchDisk` returns the
raw device. -/
theorem C1_resolution_policy_witness :
    searchDisk cOneWwn wWithDm = ("/dev/dm-0", none) ∧
    searchDisk cOneWwn wRawOnly = ("/dev/sda", none) := by
  constructor
  · exact (C1_resolution_policy cOneWwn wWithDm).1 ("/dev/sda", "/dev/dm-0")
      (by decide) (by decide)
  · exact (C1_resolution_policy cOneWwn wRawOnly).2.1 "/dev/sda" (by decide) (by decide)

/-- C2: the unbounded `for true` loop of `searchDisk` terminates for
every input: with any fuel of at least two iterations the literal loop
`searchLoopF` finishes (returning `searchLoop`'s unrolled two-pass
value, so at most two passes over the identifier list are performed);
the loop never rescans twice; and it rescans exactly once iff the first
pass found no multipath device. -/
theorem C2_loop_terminates_one_rescan (c : Connector) (w : World) (fuel : Nat)
    (hf : 2 ≤ fuel) :
    searchLoopF c w fuel false w.pre ("", "") = some (searchLoop c w ("", "")) ∧
    searchRescans c w ≤ 1 ∧
    (searchRescans c w = 0 ↔ (searchPass c w.pre (diskIds c) ("", "")).2 ≠ "") := by
  rcases Nat.exists_eq_add_of_le hf with ⟨k, rfl⟩
  have hcount : (searchLoop c w ("", "")).2 =
      if ((searchPass c w.pre (diskIds c) ("", "")).2 != "") = true then 0 else 1 := by
    simp only [searchLoop, searchLoopRescanned]
    by_cases hp : ((searchPass c w.pre (diskIds c) ("", "")).2 != "") = true
    · rw [if_pos hp, if_pos hp]
    · rw [if_neg hp, if_neg hp]
  refine ⟨?_, ?_, ?_⟩
  · have h2k : 2 + k = k + 1 + 1 := by omega
    rw [h2k]
    simp only [searchLoopF, searchLoop, searchLoopRescanned, Bool.false_or]
    by_cases hp : ((searchPass c w.pre (diskIds c) ("", "")).2 != "") = true
    · rw [if_pos hp, if_pos hp]
    · rw [if_neg hp, if_neg hp]
      simp [searchLoopF]
  · show (searchLoop c w ("", "")).2 ≤ 1
    rw [hcount]
    by_cases hp : ((searchPass c w.pre (diskIds c) ("", "")).2 != "") = true
    · rw [if_pos hp]
      decide
    · rw [if_neg hp]
  · show (searchLoop c w ("", "")).2 = 0 ↔ _
    rw [hcount]
    by_cases hp : ((searchPass c w.pre (diskIds c) ("", "")).2 != "") = true
    · rw [if_pos hp]
      constructor
      · intro _
        simpa using hp
      · intro _
        rfl
    · rw [if_neg hp]
      constructor
      · intro h
        exact absurd h (by decide)
      · intro hne
        exact absurd hne (by simpa using hp)

/-- Witness for C2: in the static world `wRawOnly` with WWNs
`["w1", "w2"]`, fuel 2 already suffices for the literal loop, the search
rescans exactly once (the first pass found no multipath device), and
running with larger fuel gives the same outcome. -/
theorem C2_loop_terminates_one_rescan_witness :
    searchLoopF cTwoWwns wRawOnly 2 false wRawOnly.pre ("", "") =
      some (searchLoop cTwoWwns wRawOnly ("", "")) ∧
    searchRescans cTwoWwns wRawOnly ≤ 1 ∧
    searchRescans cTwoWwns wRawOnly = 1 := by
  have h := C2_loop_terminates_one_rescan cTwoWwns wRawOnly 2 (by decide)
  exact ⟨h.1, h.2.1, by decide⟩

/-- Helper `locateDisk` reads only the emptiness of `TargetWWNs` and the LUN
from the connector. -/
theorem locateDisk_congr (c1 c2 : Connector) (io : FS) (id : String)
    (hT : c1.TargetWWNs = c2.TargetWWNs) (hL : c1.Lun = c2.Lun) :
    locateDisk c1 io id = locateDisk c2 io id := by
  simp only [locateDisk, hT, hL]

/-- The inner pass reads only the emptiness of `TargetWWNs` and the LUN
from the connector. -/
theorem searchPass_congr (c1 c2 : Connector) (io : FS) (l : List String)
    (hT : c1.TargetWWNs = c2.TargetWWNs) (hL : c1.Lun = c2.Lun) :
    ∀ acc, searchPass c1 io l acc = searchPass c2 io l acc := by
  induction l with
  | nil => intro acc; rfl
  | cons id rest ih =>
    intro acc
    simp only [searchPass, locateDisk_congr c1 c2 io id hT hL, ih]

/-- The identifier list agrees between two connectors with the same
`TargetWWNs` whose `WWIDs` agree whenever `TargetWWNs` is empty. -/
theorem diskIds_congr (c1 c2 : Connector)
    (hT : c1.TargetWWNs = c2.TargetWWNs)
    (hW : c1.TargetWWNs = [] → c1.WWIDs = c2.WWIDs) :
    diskIds c1 = diskIds c2 := by
  simp only [diskIds, hT]
  by_cases he : c2.TargetWWNs.length != 0
  · rw [if_pos he, if_pos he]
  · rw [if_neg he, if_neg he]
    apply hW
    rw [hT]
    simpa using he

/-- Function `searchDisk` reads only `TargetWWNs`, `Lun`, and — when `TargetWWNs`
is empty — `WWIDs` from the connector. -/
theorem searchDisk_congr (c1 c2 : Connector) (w : World)
    (hT : c1.TargetWWNs = c2.TargetWWNs) (hL : c1.Lun = c2.Lun)
    (hW : c1.TargetWWNs = [] → c1.WWIDs = c2.WWIDs) :
    searchDisk c1 w = searchDisk c2 w := by
  have hids := diskIds_congr c1 c2 hT hW
  have hloop : searchLoop c1 w ("", "") = searchLoop c2 w ("", "") := by
    simp only [searchLoop, searchLoopRescanned, hids,
      searchPass_congr c1 c2 w.pre (diskIds c2) hT hL,
      searchPass_congr c1 c2 w.post (diskIds c2) hT hL]
  simp only [searchDisk, hloop]

/-- C8: two-run noninterference of the search.  Two connectors that
differ only in `volumeName` produce the same `searchDisk` result on the
same world; and two connectors with the same non-empty `targetWWNs` and
the same `lun` that differ in `wwids` (and `volumeName`) also produce
the same result — the WWIDs are never consulted when `targetWWNs` is
non-empty. -/
theorem C8_noninterference (c1 c2 : Connector) (w : World) :
    (c1.TargetWWNs = c2.TargetWWNs → c1.Lun = c2.Lun → c1.WWIDs = c2.WWIDs →
      searchDisk c1 w = searchDisk c2 w) ∧
    (c1.TargetWWNs = c2.TargetWWNs → c1.TargetWWNs ≠ [] → c1.Lun = c2.Lun →
      searchDisk c1 w = searchDisk c2 w) := by
  constructor
  · intro hT hL hW
    exact searchDisk_congr c1 c2 w hT hL (fun _ => hW)
  · intro hT hne hL
    exact searchDisk_congr c1 c2 w hT hL (fun he => absurd he hne)

/-- Witness for C8: a connector with a different volume name and an
extra (resolvable-looking) WWID gives the same search result as
`cTwoWwns` on `wRawOnly`, since its `TargetWWNs` are non-empty. -/
theorem C8_noninterference_witness :
    searchDisk { VolumeName := "vol", TargetWWNs := ["w1", "w2"], Lun := "1",
                 WWIDs := ["wid1"] } wRawOnly = searchDisk cTwoWwns wRawOnly ∧
    searchDisk { VolumeName := "other", TargetWWNs := ["w1", "w2"], Lun := "1" }
      wRawOnly = searchDisk cTwoWwns wRawOnly := by
  constructor
  · exact (C8_noninterference
      { VolumeName := "vol", TargetWWNs := ["w1", "w2"], Lun := "1", WWIDs := ["wid1"] }
      cTwoWwns wRawOnly).2 (by decide) (by decide) (by decide)
  · exact (C8_noninterference
      { VolumeName := "other", TargetWWNs := ["w1", "w2"], Lun := "1" }
      cTwoWwns wRawOnly).1 (by decide) (by decide) (by decide)

end Fibrechannel
